import Mathlib

/-!
Verification development for the whisper.cpp binding layer
(`src/rust/whisper_wrapper/whisper_wrapper.cpp` / `.h`).

The file shallowly embeds the wrapper code: the constructor and
`create_whisper_wrapper`, the destructor, `infer_buffer` (its hard-coded
parameter block, callback registration and abort-flag setup) and
`get_segment_count`, together with the two print callbacks
`whisper_print_progress_callback` and `whisper_print_segment_callback`.

The wrapped engine (`whisper_full`, `whisper_full_n_segments`,
`whisper_init_from_file_with_params`, `to_timestamp`) belongs to the
repository but is not part of the fragment under `src/`; those parts are
modelled from the specification, with their nondeterminism (the engine's
event schedule during one decode pass, the load outcome per path) exposed
as explicit parameters.
-/

namespace WhisperRust

/-- One transcribed segment: start time, end time (centiseconds) and text. -/
structure Segment where
  t0 : Int
  t1 : Int
  text : String
deriving Repr, DecidableEq

/-- Modelled from the spec: the engine context behind `whisper_context *`.
For the claims only the finalized segment sequence matters (produced in
increasing time order, append-only, one sequence per session). -/
structure WhisperContext where
  segments : List Segment
deriving Repr, DecidableEq

/-- Modelled from the spec: `whisper_full_n_segments` (declared outside the
fragment) returns the number of finalized segments — a count equal to the
length of the segment sequence. -/
def whisper_full_n_segments (ctx : WhisperContext) : Int :=
  ctx.segments.length

/-- The wrapper object, fields exactly as in `whisper_wrapper.h`:
`prompt_` (default-constructed, never assigned anywhere in the fragment),
`whisper_ctx_` (a possibly null pointer, `none` = null) and the public
`progress_` field with in-class initializer 0. There is no "closed" flag. -/
structure WhisperWrapper where
  prompt_ : String
  whisper_ctx_ : Option WhisperContext
  progress_ : Int
deriving Repr, DecidableEq

/-- `WhisperWrapper::WhisperWrapper(model_path)`: stores the result of
`whisper_init_from_file_with_params(model_path, cparams)` into
`whisper_ctx_` without inspecting it; a failed load leaves the field null.
The load outcome per path is a parameter, since the loader is outside the
fragment (modelled from the spec: it returns the context, or null when the
path does not resolve to a loadable model). -/
def WhisperWrapper.construct (load : String → Option WhisperContext)
    (model_path : String) : WhisperWrapper :=
  { prompt_ := "", whisper_ctx_ := load model_path, progress_ := 0 }

/-- `create_whisper_wrapper(model_path)`: unconditionally wraps a freshly
constructed object in a `unique_ptr`; no error is ever produced. -/
def create_whisper_wrapper (load : String → Option WhisperContext)
    (model_path : String) : Option WhisperWrapper :=
  some (WhisperWrapper.construct load model_path)

/-- `WhisperWrapper::~WhisperWrapper()`: calls `whisper_free(whisper_ctx_)`
when the pointer is non-null. The destructor body does not modify the
fields (the pointer is left dangling). The returned `Nat` counts how many
times `whisper_free` ran. -/
def WhisperWrapper.destruct (w : WhisperWrapper) : WhisperWrapper × Nat :=
  if w.whisper_ctx_.isSome then (w, 1) else (w, 0)

/-- `WhisperWrapper::get_segment_count()`: forwards to
`whisper_full_n_segments(whisper_ctx_)` with no guard of any kind. (A null
context would be undefined behavior in C; that branch is modelled as 0 and
is not relied on by any theorem.) -/
def WhisperWrapper.get_segment_count (w : WhisperWrapper) : Int :=
  match w.whisper_ctx_ with
  | some ctx => whisper_full_n_segments ctx
  | none => 0

/-! ## Timestamp rendering -/

/-- Zero-pads the decimal rendering of an integer to width `w`. -/
def padZeros (w : Nat) (n : Int) : String :=
  let s := toString n
  if s.length < w then String.mk (List.replicate (w - s.length) '0' ++ s.data)
  else s

/-- Modelled from the spec: the repository's `to_timestamp` helper
(declared outside the fragment) renders a time given in centiseconds as
`HH:MM:SS.mmm` with zero-padded fields. -/
def to_timestamp (t : Int) : String :=
  let msec0 := t * 10
  let hr := msec0 / 3600000
  let msec1 := msec0 - hr * 3600000
  let mins := msec1 / 60000
  let msec2 := msec1 - mins * 60000
  let sec := msec2 / 1000
  let msec3 := msec2 - sec * 1000
  padZeros 2 hr ++ ":" ++ padZeros 2 mins ++ ":" ++ padZeros 2 sec ++ "." ++ padZeros 3 msec3

/-! ## The print callbacks (lines 24–58 of the source) -/

/-- `whisper_print_progress_callback`: `user_data` holds the stored
`print_user_data::progress`. When the engine progress has reached the
stored value plus 10, the stored value advances by exactly 10 and the
engine progress (not the stored value) is printed to stderr. Returns the
new stored value together with the printed percent, if any. -/
def whisper_print_progress_callback (progress stored : Int) : Int × Option Int :=
  if stored + 10 ≤ progress then (stored + 10, some progress) else (stored, none)

/-- `whisper_print_segment_callback`: reads `n_segments` from the context
and prints the last `n_new` segments, each as
`[to_timestamp t0 --> to_timestamp t1]  text`. The locals `t0` and `t1`
are initialized to 0 and never reassigned, so both rendered timestamps are
`to_timestamp 0` for every segment. Returns the printed entries
(start string, end string, text). In the source `s0 = n_segments - n_new`
is an `int`; the engine only calls the callback with
`n_new ≤ n_segments`, where the `Nat` truncation below agrees. -/
def whisper_print_segment_callback (ctx : WhisperContext) (n_new : Nat) :
    List (String × String × String) :=
  let n_segments := ctx.segments.length
  let t0 : Int := 0
  let t1 : Int := 0
  let s0 := n_segments - n_new
  (ctx.segments.drop s0).map fun seg => (to_timestamp t0, to_timestamp t1, seg.text)

/-- The `encoder_begin_callback` lambda (lines 117–121): reads the static
`is_aborted` flag through `user_data` and returns its negation — returning
false aborts the run before an encoder sub-step. -/
def encoder_begin_callback (is_aborted : Bool) : Bool :=
  !is_aborted

/-- The `abort_callback` lambda (lines 129–132): reads the static
`is_aborted` flag through `user_data` — returning true aborts the
computation. -/
def abort_callback (is_aborted : Bool) : Bool :=
  is_aborted

/-! ## The parameter block (lines 61–108 of the source) -/

/-- Sampling strategy constants of the engine API. -/
inductive SamplingStrategy where
  | greedy
  | beamSearch
deriving Repr, DecidableEq

/-- The fields of `whisper_full_params` that `infer_buffer` assigns
(lines 61–94), plus the callback registrations (lines 99–134). Fields the
code never touches keep whatever the engine defaults provide and are left
out. Float-valued fields are recorded in centi-units (the code assigns
the constants 0.01f, 2.40f and −1.00f; no arithmetic is ever performed on
them here). The two `..._abort_flag` fields are the values of the static
`is_aborted` variables handed to the engine as callback user data. -/
structure WhisperFullParams where
  strategy : SamplingStrategy
  print_realtime : Bool
  print_progress : Bool
  print_timestamps : Bool
  print_special : Bool
  translate : Bool
  language : String
  detect_language : Bool
  n_threads : Int
  offset_ms : Int
  duration_ms : Int
  debug_mode : Bool
  token_timestamps : Bool
  thold_pt_centi : Int
  max_len : Int
  split_on_word : Bool
  audio_ctx : Int
  initial_prompt : String
  greedy_best_of : Int
  beam_search_beam_size : Int
  entropy_thold_centi : Int
  logprob_thold_centi : Int
  no_timestamps : Bool
  new_segment_callback_set : Bool
  progress_callback_set : Bool
  encoder_begin_abort_flag : Bool
  abort_flag : Bool
deriving Repr, DecidableEq

/-- Lines 61–94: start from `whisper_full_default_params(GREEDY)` (the
engine's defaults, a parameter here since they live outside the fragment)
and overwrite the listed fields with the hard-coded values; in particular
`n_threads = 4` always, whatever the caller might have wanted. -/
def mk_wparams (defaults : WhisperFullParams) (prompt : String) : WhisperFullParams :=
  { defaults with
    strategy := .beamSearch
    print_realtime := false
    print_progress := true
    print_timestamps := true
    print_special := false
    translate := false
    language := "auto"
    detect_language := false
    n_threads := 4
    offset_ms := 0
    duration_ms := 0
    debug_mode := true
    token_timestamps := false
    thold_pt_centi := 1
    max_len := 120
    split_on_word := false
    audio_ctx := 0
    initial_prompt := prompt
    greedy_best_of := 5
    beam_search_beam_size := 5
    entropy_thold_centi := 240
    logprob_thold_centi := -100
    no_timestamps := true }

/-- Lines 96–134: `print_user_data user_data = {0}` is the run's initial
stored progress; the segment callback is registered because
`print_realtime` is false, the progress callback because `print_progress`
is true; both static `is_aborted` flags are initialized to `false` and no
statement in the fragment ever assigns them afterwards. -/
def infer_params (defaults : WhisperFullParams) (prompt : String) : WhisperFullParams :=
  let w0 := mk_wparams defaults prompt
  let w1 := if !w0.print_realtime then { w0 with new_segment_callback_set := true } else w0
  let w2 := if w1.print_progress then { w1 with progress_callback_set := true } else w1
  { w2 with encoder_begin_abort_flag := false, abort_flag := false }

/-! ## The engine run (whisper_full), modelled from the spec -/

/-- Modelled from the spec: the observable events of one blocking decode
pass, in order. `encode` is the checkpoint before a major encoder
sub-step (the engine consults `encoder_begin_callback` there), `compute`
the checkpoint before a decoding computation (the engine consults
`abort_callback`), `progress p` a progress notification with cumulative
percent `p`, and `newSegments batch` the finalization of one or more new
segments (the engine appends them and notifies with `n_new`). The
schedule is determined by the audio buffer and the engine internals, so
it is a parameter of the model. -/
inductive EngineEvent where
  | encode
  | compute
  | progress (p : Int)
  | newSegments (batch : List Segment)
deriving Repr, DecidableEq

/-- The mutable state threaded through one `infer_buffer` run: the engine
context, the stored `print_user_data::progress`, and the observable
output of the two print callbacks (percents printed to stderr, segment
lines printed to stdout). -/
structure RunState where
  ctx : WhisperContext
  stored_progress : Int
  progressReports : List Int
  segmentEmits : List (List (String × String × String))
deriving Repr, DecidableEq

/-- Terminal state of a run, following the spec's state machine
`Running → {Completed, Cancelled, Failed}`. `Completed` and `Cancelled`
carry the (full resp. partial) segment count. -/
inductive RunStatus where
  | Completed (count : Int)
  | Cancelled (count : Int)
  | Failed (code : Int)
deriving Repr, DecidableEq

/-- Whether a status is the early-terminated partial-success state. -/
def RunStatus.isCancelled : RunStatus → Bool
  | .Cancelled _ => true
  | _ => false

/-- The int32 that crosses the FFI boundary: per the spec the output is
the segment count (full or partial) or an error code. -/
def RunStatus.retcode : RunStatus → Int
  | .Completed n => n
  | .Cancelled n => n
  | .Failed code => code

/-- Modelled from the spec: one engine step of `whisper_full`. At an
`encode` checkpoint the registered `encoder_begin_callback` is consulted
(false aborts); at a `compute` checkpoint the registered `abort_callback`
(true aborts); `none` means the run terminates early at that checkpoint.
A progress event invokes the progress callback when one is registered; a
segment event appends the batch to the context and invokes the segment
callback with `n_new = batch.length` when one is registered. -/
def engineStep (params : WhisperFullParams) (st : RunState) :
    EngineEvent → Option RunState
  | .encode =>
      if encoder_begin_callback params.encoder_begin_abort_flag then some st else none
  | .compute =>
      if abort_callback params.abort_flag then none else some st
  | .progress p =>
      if params.progress_callback_set then
        let r := whisper_print_progress_callback p st.stored_progress
        some { st with stored_progress := r.1,
                       progressReports := st.progressReports ++ r.2.toList }
      else some st
  | .newSegments batch =>
      let ctx' : WhisperContext := ⟨st.ctx.segments ++ batch⟩
      if params.new_segment_callback_set then
        some { st with ctx := ctx',
                       segmentEmits := st.segmentEmits ++
                         [whisper_print_segment_callback ctx' batch.length] }
      else some { st with ctx := ctx' }

/-- Runs the event schedule until it is exhausted or a checkpoint aborts;
the boolean is true when the run was aborted early. -/
def runEvents (params : WhisperFullParams) :
    List EngineEvent → RunState → RunState × Bool
  | [], st => (st, false)
  | e :: rest, st =>
      match engineStep params st e with
      | none => (st, true)
      | some st' => runEvents params rest st'

/-- Modelled from the spec: `whisper_full` performs one blocking decode
pass over the schedule. If a checkpoint aborts, the run terminates early
in `Cancelled`, keeping the segments already finalized (partial success,
not a hard failure). Otherwise an unrecoverable engine failure (the
`engineFailure` parameter) yields `Failed` with the engine code, and a
successful pass yields `Completed` with a count equal to the length of
the produced segment sequence. -/
def whisper_full_model (params : WhisperFullParams) (script : List EngineEvent)
    (engineFailure : Option Int) (st : RunState) : RunState × RunStatus :=
  let r := runEvents params script st
  if r.2 then (r.1, .Cancelled r.1.ctx.segments.length)
  else
    match engineFailure with
    | some code => (r.1, .Failed code)
    | none => (r.1, .Completed r.1.ctx.segments.length)

/-- The state at the start of a run: a fresh segment sequence (the spec:
one sequence per session) and `print_user_data user_data = {0}`. -/
def initRunState : RunState :=
  { ctx := ⟨[]⟩, stored_progress := 0, progressReports := [], segmentEmits := [] }

/-- `WhisperWrapper::infer_buffer(buffer, buffer_size)`: builds the
parameter block, registers the callbacks, initializes the abort flags to
false and forwards everything to `whisper_full`. The audio buffer itself
only influences the engine-owned schedule, which together with the engine
defaults and a possible engine failure code is a parameter of the model.
Returns the final run state and the terminal status; the int32 the C++
function returns is `(·.2).retcode`. -/
def WhisperWrapper.infer_buffer (w : WhisperWrapper)
    (defaults : WhisperFullParams) (script : List EngineEvent)
    (engineFailure : Option Int) : RunState × RunStatus :=
  whisper_full_model (infer_params defaults w.prompt_) script engineFailure initRunState

/-! ## Derived views of a schedule -/

/-- The progress percents an engine schedule hands to the progress
callback, in order. -/
def progressValues : List EngineEvent → List Int
  | [] => []
  | .progress p :: rest => p :: progressValues rest
  | _ :: rest => progressValues rest

/-- The batches of newly finalized segments of a schedule, in order. -/
def newSegmentBatches : List EngineEvent → List (List Segment)
  | [] => []
  | .newSegments b :: rest => b :: newSegmentBatches rest
  | _ :: rest => newSegmentBatches rest

/-- Whether an event is a cooperative-cancellation checkpoint. -/
def EngineEvent.isCheckpoint : EngineEvent → Bool
  | .encode => true
  | .compute => true
  | _ => false

/-- Whether a schedule reaches at least one checkpoint. -/
def hasCheckpoint (script : List EngineEvent) : Bool :=
  script.any EngineEvent.isCheckpoint

/-- The segment batches a schedule finalizes strictly before its first
checkpoint. -/
def batchesBeforeCheckpoint : List EngineEvent → List (List Segment)
  | [] => []
  | .encode :: _ => []
  | .compute :: _ => []
  | .newSegments b :: rest => b :: batchesBeforeCheckpoint rest
  | .progress _ :: rest => batchesBeforeCheckpoint rest

/-- What the segment callback prints for one freshly appended batch. -/
def renderBatch (b : List Segment) : List (String × String × String) :=
  b.map fun seg => (to_timestamp 0, to_timestamp 0, seg.text)

/-- The percents the progress callback prints, as a pure function of the
stored value and the incoming engine percents. -/
def progressReportsFrom (stored : Int) : List Int → List Int
  | [] => []
  | p :: ps =>
      if stored + 10 ≤ p then p :: progressReportsFrom (stored + 10) ps
      else progressReportsFrom stored ps

/-- The stored `print_user_data::progress` after a sequence of engine
percents. -/
def storedAfter (stored : Int) : List Int → Int
  | [] => stored
  | p :: ps =>
      if stored + 10 ≤ p then storedAfter (stored + 10) ps
      else storedAfter stored ps

/-- One step of the report discipline the specification claims: the next
percent is at least 10 greater than the previous, or it is a final report
at 100 (still strictly greater). -/
def claimedStep (a b : Int) : Bool :=
  (a + 10 ≤ b) || (b == 100 && a < b)

/-- The full report discipline the specification claims for one session:
percents within [0,100], strictly increasing, each successive at least 10
greater than the previous except possibly a final report at 100. -/
def claimedProgressOk : List Int → Bool
  | [] => true
  | [p] => (0 ≤ p : Bool) && (p ≤ 100 : Bool)
  | a :: b :: rest =>
      (0 ≤ a : Bool) && (a ≤ 100 : Bool) && claimedStep a b && claimedProgressOk (b :: rest)

/-- A concrete stand-in for the engine's default parameter block, used
only to instantiate theorems at concrete inputs. -/
def sampleDefaults : WhisperFullParams :=
  { strategy := .greedy
    print_realtime := false
    print_progress := false
    print_timestamps := false
    print_special := false
    translate := false
    language := "en"
    detect_language := false
    n_threads := 4
    offset_ms := 0
    duration_ms := 0
    debug_mode := false
    token_timestamps := false
    thold_pt_centi := 1
    max_len := 60
    split_on_word := false
    audio_ctx := 0
    initial_prompt := ""
    greedy_best_of := 5
    beam_search_beam_size := 5
    entropy_thold_centi := 240
    logprob_thold_centi := -100
    no_timestamps := false
    new_segment_callback_set := false
    progress_callback_set := false
    encoder_begin_abort_flag := false
    abort_flag := false }

/-! ## Helper lemmas -/

/-- The segment callback invoked right after a batch is appended prints
exactly that batch: the last `n_new` of the total are the new segments. -/
theorem segment_callback_append (pre b : List Segment) :
    whisper_print_segment_callback ⟨pre ++ b⟩ b.length = renderBatch b := by
  simp [whisper_print_segment_callback, renderBatch, List.drop_left]

/-- Characterization of a run whose abort flags are false and whose print
callbacks are both registered (exactly the setup of `infer_buffer`): the
schedule is consumed in full (no abort), the context accumulates the
segment batches in order, the segment callback prints each batch once,
and the progress side is described by `progressReportsFrom` and
`storedAfter` over the schedule's percent values. -/
theorem runEvents_infer_eq (p : WhisperFullParams)
    (h1 : p.encoder_begin_abort_flag = false) (h2 : p.abort_flag = false)
    (h3 : p.new_segment_callback_set = true) (h4 : p.progress_callback_set = true)
    (script : List EngineEvent) :
    ∀ st : RunState,
      runEvents p script st =
        ({ ctx := ⟨st.ctx.segments ++ (newSegmentBatches script).flatten⟩,
           stored_progress := storedAfter st.stored_progress (progressValues script),
           progressReports := st.progressReports ++
             progressReportsFrom st.stored_progress (progressValues script),
           segmentEmits := st.segmentEmits ++
             (newSegmentBatches script).map renderBatch },
         false) := by
  induction script with
  | nil =>
      intro st
      simp [runEvents, newSegmentBatches, progressValues, progressReportsFrom, storedAfter]
  | cons e rest ih =>
      intro st
      cases e with
      | encode =>
          simp [runEvents, engineStep, encoder_begin_callback, h1, ih,
                newSegmentBatches, progressValues]
      | compute =>
          simp [runEvents, engineStep, abort_callback, h2, ih,
                newSegmentBatches, progressValues]
      | progress q =>
          by_cases hc : st.stored_progress + 10 ≤ q
          · simp [runEvents, engineStep, h4, whisper_print_progress_callback, hc, ih,
                  newSegmentBatches, progressValues, progressReportsFrom, storedAfter]
          · simp [runEvents, engineStep, h4, whisper_print_progress_callback, hc, ih,
                  newSegmentBatches, progressValues, progressReportsFrom, storedAfter]
      | newSegments b =>
          simp [runEvents, engineStep, h3, ih, newSegmentBatches, progressValues,
                segment_callback_append]

/-- The flags and registrations `infer_buffer` actually passes. -/
theorem infer_params_fields (defaults : WhisperFullParams) (prompt : String) :
    (infer_params defaults prompt).encoder_begin_abort_flag = false ∧
    (infer_params defaults prompt).abort_flag = false ∧
    (infer_params defaults prompt).new_segment_callback_set = true ∧
    (infer_params defaults prompt).progress_callback_set = true ∧
    (infer_params defaults prompt).n_threads = 4 := by
  simp [infer_params, mk_wparams]

/-- Unfolded form of a full `infer_buffer` run. -/
theorem infer_buffer_eq (w : WhisperWrapper) (defaults : WhisperFullParams)
    (script : List EngineEvent) (engineFailure : Option Int) :
    w.infer_buffer defaults script engineFailure =
      (let fin : RunState :=
        { ctx := ⟨(newSegmentBatches script).flatten⟩,
          stored_progress := storedAfter 0 (progressValues script),
          progressReports := progressReportsFrom 0 (progressValues script),
          segmentEmits := (newSegmentBatches script).map renderBatch }
       match engineFailure with
       | some code => (fin, .Failed code)
       | none => (fin, .Completed fin.ctx.segments.length)) := by
  obtain ⟨f1, f2, f3, f4, -⟩ := infer_params_fields defaults w.prompt_
  unfold WhisperWrapper.infer_buffer whisper_full_model
  rw [runEvents_infer_eq _ f1 f2 f3 f4]
  cases engineFailure <;> simp [initRunState]

/-- The final run state of `infer_buffer`, independent of whether the
engine reports an internal failure at the end. -/
theorem infer_buffer_fst (w : WhisperWrapper) (defaults : WhisperFullParams)
    (script : List EngineEvent) (engineFailure : Option Int) :
    (w.infer_buffer defaults script engineFailure).1 =
      { ctx := ⟨(newSegmentBatches script).flatten⟩,
        stored_progress := storedAfter 0 (progressValues script),
        progressReports := progressReportsFrom 0 (progressValues script),
        segmentEmits := (newSegmentBatches script).map renderBatch } := by
  rw [infer_buffer_eq]
  cases engineFailure <;> rfl

/-- A run whose abort flags are raised before it starts terminates at the
first checkpoint it reaches, keeping exactly the segments finalized
before that checkpoint. -/
theorem runEvents_aborted (p : WhisperFullParams)
    (h1 : p.encoder_begin_abort_flag = true) (h2 : p.abort_flag = true)
    (h3 : p.new_segment_callback_set = true) :
    ∀ (script : List EngineEvent) (st : RunState),
      hasCheckpoint script = true →
      (runEvents p script st).2 = true ∧
      (runEvents p script st).1.ctx.segments =
        st.ctx.segments ++ (batchesBeforeCheckpoint script).flatten := by
  intro script
  induction script with
  | nil => intro st hchk; simp [hasCheckpoint] at hchk
  | cons e rest ih =>
      intro st hchk
      cases e with
      | encode =>
          simp [runEvents, engineStep, encoder_begin_callback, h1, batchesBeforeCheckpoint]
      | compute =>
          simp [runEvents, engineStep, abort_callback, h2, batchesBeforeCheckpoint]
      | progress q =>
          have hrest : hasCheckpoint rest = true := by
            simpa [hasCheckpoint, EngineEvent.isCheckpoint] using hchk
          simp only [runEvents, engineStep, batchesBeforeCheckpoint]
          by_cases hp : p.progress_callback_set = true
          · rw [if_pos hp]
            refine ⟨(ih _ hrest).1, ?_⟩
            rw [(ih _ hrest).2]
          · rw [if_neg hp]
            exact ih st hrest
      | newSegments b =>
          have hrest : hasCheckpoint rest = true := by
            simpa [hasCheckpoint, EngineEvent.isCheckpoint] using hchk
          have := ih { st with
              ctx := ⟨st.ctx.segments ++ b⟩,
              segmentEmits := st.segmentEmits ++
                [whisper_print_segment_callback ⟨st.ctx.segments ++ b⟩ b.length] } hrest
          simp only [runEvents, engineStep, h3, if_true, batchesBeforeCheckpoint]
          simpa [List.append_assoc] using this

/-- The printed percents form a sublist of the percents the engine sent. -/
theorem progressReportsFrom_sublist :
    ∀ (ps : List Int) (s : Int), List.Sublist (progressReportsFrom s ps) ps := by
  intro ps
  induction ps with
  | nil => intro s; simp [progressReportsFrom]
  | cons p ps ih =>
      intro s
      by_cases hc : s + 10 ≤ p
      · rw [show progressReportsFrom s (p :: ps) = p :: progressReportsFrom (s + 10) ps
            from by simp [progressReportsFrom, hc]]
        exact List.Sublist.cons₂ p (ih (s + 10))
      · rw [show progressReportsFrom s (p :: ps) = progressReportsFrom s ps
            from by simp [progressReportsFrom, hc]]
        exact List.Sublist.cons p (ih s)

/-- Each printed percent clears the threshold current at its print: the
i-th printed percent (0-based) is at least the starting stored value plus
10·(i+1). -/
theorem progressReportsFrom_get :
    ∀ (ps : List Int) (s : Int) (i : Nat) (h : i < (progressReportsFrom s ps).length),
      s + 10 * ((i : Int) + 1) ≤ (progressReportsFrom s ps)[i] := by
  intro ps
  induction ps with
  | nil => intro s i h; simp [progressReportsFrom] at h
  | cons p ps ih =>
      intro s i h
      by_cases hc : s + 10 ≤ p
      · have heq : progressReportsFrom s (p :: ps) = p :: progressReportsFrom (s + 10) ps := by
          simp [progressReportsFrom, hc]
        have h2 := h
        rw [heq] at h2
        cases i with
        | zero => simp only [heq, List.getElem_cons_zero, Nat.cast_zero]; linarith
        | succ j =>
            have hj : j < (progressReportsFrom (s + 10) ps).length := by
              simpa using h2
            calc s + 10 * (((j + 1 : Nat) : Int) + 1)
                = (s + 10) + 10 * ((j : Int) + 1) := by push_cast; ring
              _ ≤ (progressReportsFrom (s + 10) ps)[j] := ih (s + 10) j hj
              _ = (progressReportsFrom s (p :: ps))[j + 1] := by
                  simp [heq]
      · have heq : progressReportsFrom s (p :: ps) = progressReportsFrom s ps := by
          simp [progressReportsFrom, hc]
        have h2 := h
        rw [heq] at h2
        calc s + 10 * ((i : Int) + 1)
            ≤ (progressReportsFrom s ps)[i] := ih s i h2
          _ = (progressReportsFrom s (p :: ps))[i] := by simp [heq]

/-- The stored value advances by exactly 10 per printed percent. -/
theorem storedAfter_eq :
    ∀ (ps : List Int) (s : Int),
      storedAfter s ps = s + 10 * (progressReportsFrom s ps).length := by
  intro ps
  induction ps with
  | nil => intro s; simp [storedAfter, progressReportsFrom]
  | cons p ps ih =>
      intro s
      by_cases hc : s + 10 ≤ p
      · simp [storedAfter, progressReportsFrom, hc, ih (s + 10)]; ring
      · simp [storedAfter, progressReportsFrom, hc, ih s]

/-- In a nondecreasing chain, the head is at most the last element. -/
theorem chain_le_getLast :
    ∀ (ps : List Int) (p : Int) (h : ps ≠ []),
      List.Chain' (· ≤ ·) (p :: ps) → p ≤ ps.getLast h := by
  intro ps
  induction ps with
  | nil => intro p h; exact absurd rfl h
  | cons q ps ih =>
      intro p h hch
      rcases List.chain'_cons.mp hch with ⟨hpq, hch'⟩
      cases ps with
      | nil => simpa using hpq
      | cons r ps =>
          have := ih q (by simp) hch'
          rw [List.getLast_cons (by simp)]
          exact le_trans hpq (by simpa using this)

/-- The stored value never overtakes a nondecreasing percent stream: it
stays below the starting value or the stream's last element. -/
theorem storedAfter_le_max :
    ∀ (ps : List Int) (s : Int) (h : ps ≠ []),
      List.Chain' (· ≤ ·) ps → storedAfter s ps ≤ max s (ps.getLast h) := by
  intro ps
  induction ps with
  | nil => intro s h; exact absurd rfl h
  | cons p ps ih =>
      intro s h hch
      cases ps with
      | nil =>
          by_cases hc : s + 10 ≤ p
          · simp only [storedAfter, hc, if_true, List.getLast_singleton]
            exact le_max_of_le_right (by linarith)
          · simp [storedAfter, hc]
      | cons r ps' =>
          rcases List.chain'_cons.mp hch with ⟨hpr, hch'⟩
          have hlast : p ≤ (r :: ps').getLast (by simp) :=
            chain_le_getLast (r :: ps') p (by simp) hch
          rw [List.getLast_cons (by simp)]
          by_cases hc : s + 10 ≤ p
          · have := ih (s + 10) (by simp) hch'
            simp only [storedAfter, hc, if_true]
            refine le_trans this (max_le ?_ (le_max_right _ _))
            exact le_trans (le_trans hc hlast) (le_max_right _ _)
          · have := ih s (by simp) hch'
            simp only [storedAfter, hc, if_false]
            exact le_trans this (max_le (le_max_left _ _) (le_max_right _ _))

/-! ## Claim theorems -/

/-- C1: for every successful inference call (terminal state `Completed`),
the integer `infer_buffer` returns equals the length of the produced
segment sequence, which is exactly the value `get_segment_count` returns
immediately after the call (reading the context the run left behind). -/
theorem C1_success_returns_segment_count (w : WhisperWrapper)
    (defaults : WhisperFullParams) (script : List EngineEvent)
    (engineFailure : Option Int) (n : Int)
    (hsucc : (w.infer_buffer defaults script engineFailure).2 = .Completed n) :
    (w.infer_buffer defaults script engineFailure).2.retcode = n ∧
    WhisperWrapper.get_segment_count
      { w with whisper_ctx_ := some (w.infer_buffer defaults script engineFailure).1.ctx } = n ∧
    n = ((w.infer_buffer defaults script engineFailure).1.ctx.segments.length : Int) := by
  rw [infer_buffer_eq] at hsucc
  cases engineFailure with
  | none =>
      simp only [RunStatus.Completed.injEq] at hsucc
      rw [infer_buffer_eq]
      simp [RunStatus.retcode, WhisperWrapper.get_segment_count, whisper_full_n_segments, ← hsucc]
  | some code => simp at hsucc

/-- C1 witness: a run finalizing one batch of two segments completes with
return value 2, and `get_segment_count` right after the call is 2. -/
theorem C1_witness :
    (((⟨"", some ⟨[]⟩, 0⟩ : WhisperWrapper).infer_buffer sampleDefaults
        [.newSegments [⟨0, 50, "a"⟩, ⟨50, 100, "b"⟩]] none).2 =
      RunStatus.Completed 2) ∧
    ((((⟨"", some ⟨[]⟩, 0⟩ : WhisperWrapper).infer_buffer sampleDefaults
        [.newSegments [⟨0, 50, "a"⟩, ⟨50, 100, "b"⟩]] none).2.retcode = 2) ∧
     (WhisperWrapper.get_segment_count
        { (⟨"", some ⟨[]⟩, 0⟩ : WhisperWrapper) with
          whisper_ctx_ := some (((⟨"", some ⟨[]⟩, 0⟩ : WhisperWrapper)).infer_buffer
            sampleDefaults [.newSegments [⟨0, 50, "a"⟩, ⟨50, 100, "b"⟩]] none).1.ctx } = 2) ∧
     ((2 : Int) = ((((⟨"", some ⟨[]⟩, 0⟩ : WhisperWrapper)).infer_buffer sampleDefaults
        [.newSegments [⟨0, 50, "a"⟩, ⟨50, 100, "b"⟩]] none).1.ctx.segments.length : Int))) :=
  ⟨by decide, C1_success_returns_segment_count _ _ _ _ 2 (by decide)⟩

/-- C2 counterexample: opening the nonexistent path "/no/such/model.bin"
(on a loader for which that path is not loadable) does not fail — it
returns a fully wrapped handle whose underlying engine context is null. -/
theorem C2_counterexample :
    create_whisper_wrapper (fun _ => none) "/no/such/model.bin" =
      some { prompt_ := "", whisper_ctx_ := none, progress_ := 0 } := rfl

/-- C2 amended: for every path that does not resolve to a loadable model,
`create_whisper_wrapper` returns a partially-constructed handle whose
underlying engine context is null; no ModelLoadError (or error of any
kind) is produced. -/
theorem C2_amended_null_handle (load : String → Option WhisperContext)
    (path : String) (hfail : load path = none) :
    ∃ w, create_whisper_wrapper load path = some w ∧ w.whisper_ctx_ = none := by
  refine ⟨WhisperWrapper.construct load path, rfl, ?_⟩
  simp [WhisperWrapper.construct, hfail]

/-- C2 witness: the amended statement at the loader that rejects every
path and the concrete path "/no/such/model.bin". -/
theorem C2_witness :
    ((fun _ : String => (none : Option WhisperContext)) "/no/such/model.bin" = none) ∧
    ∃ w, create_whisper_wrapper (fun _ => none) "/no/such/model.bin" = some w ∧
      w.whisper_ctx_ = none :=
  ⟨rfl, C2_amended_null_handle _ _ rfl⟩

/-- C3: when the cancellation flag is raised before the run starts (hence
before the first checkpoint) and the schedule reaches a checkpoint, the
run terminates early in `Cancelled`, carrying exactly the segments
finalized before that checkpoint (possibly none) — and never in `Failed`,
even when an engine failure code is pending. The flag raised here is the
static `is_aborted` pair read by the registered callbacks; the checkpoint
handling of `whisper_full` itself is modelled from the spec. -/
theorem C3_cancel_before_checkpoint (defaults : WhisperFullParams)
    (prompt : String) (script : List EngineEvent) (engineFailure : Option Int)
    (hchk : hasCheckpoint script = true) :
    (whisper_full_model
        { infer_params defaults prompt with
          encoder_begin_abort_flag := true, abort_flag := true }
        script engineFailure initRunState).2 =
      .Cancelled ((batchesBeforeCheckpoint script).flatten.length) ∧
    (whisper_full_model
        { infer_params defaults prompt with
          encoder_begin_abort_flag := true, abort_flag := true }
        script engineFailure initRunState).1.ctx.segments =
      (batchesBeforeCheckpoint script).flatten ∧
    ∀ code, (whisper_full_model
        { infer_params defaults prompt with
          encoder_begin_abort_flag := true, abort_flag := true }
        script engineFailure initRunState).2 ≠ .Failed code := by
  have hseg : ({ infer_params defaults prompt with
      encoder_begin_abort_flag := true, abort_flag := true } :
        WhisperFullParams).new_segment_callback_set = true := by
    simp [infer_params, mk_wparams]
  have h := runEvents_aborted _ rfl rfl hseg script initRunState hchk
  have hctx : (runEvents
      { infer_params defaults prompt with
        encoder_begin_abort_flag := true, abort_flag := true }
      script initRunState).1.ctx.segments =
      (batchesBeforeCheckpoint script).flatten := by
    simpa [initRunState] using h.2
  refine ⟨?_, ?_, ?_⟩ <;> simp [whisper_full_model, h.1, hctx]

/-- C3 witness: with the flag raised, a schedule that finalizes one
segment, reaches an encoder checkpoint and would finalize another ends in
`Cancelled` with exactly the first segment, despite a pending engine
failure code. -/
theorem C3_witness :
    (hasCheckpoint [.newSegments [⟨0, 10, "x"⟩], .encode,
        .newSegments [⟨10, 20, "y"⟩]] = true) ∧
    ((whisper_full_model
        { infer_params sampleDefaults "" with
          encoder_begin_abort_flag := true, abort_flag := true }
        [.newSegments [⟨0, 10, "x"⟩], .encode, .newSegments [⟨10, 20, "y"⟩]]
        (some 3) initRunState).2 =
      .Cancelled ((batchesBeforeCheckpoint [.newSegments [⟨0, 10, "x"⟩], .encode,
        .newSegments [⟨10, 20, "y"⟩]]).flatten.length) ∧
     (whisper_full_model
        { infer_params sampleDefaults "" with
          encoder_begin_abort_flag := true, abort_flag := true }
        [.newSegments [⟨0, 10, "x"⟩], .encode, .newSegments [⟨10, 20, "y"⟩]]
        (some 3) initRunState).1.ctx.segments =
      (batchesBeforeCheckpoint [.newSegments [⟨0, 10, "x"⟩], .encode,
        .newSegments [⟨10, 20, "y"⟩]]).flatten ∧
     ∀ code, (whisper_full_model
        { infer_params sampleDefaults "" with
          encoder_begin_abort_flag := true, abort_flag := true }
        [.newSegments [⟨0, 10, "x"⟩], .encode, .newSegments [⟨10, 20, "y"⟩]]
        (some 3) initRunState).2 ≠ .Failed code) :=
  ⟨by decide, C3_cancel_before_checkpoint sampleDefaults "" _ (some 3) (by decide)⟩

/-- C4 counterexample: in a session whose engine percents are 95 then 96
(nondecreasing and within [0,100]), the callback prints 95 and then 96:
the second printed percent is only 1 above the first and is not a final
report at 100, so the claimed discipline (strictly increasing with gaps
of at least 10 except a final 100) is violated. -/
theorem C4_counterexample :
    ((⟨"", some ⟨[]⟩, 0⟩ : WhisperWrapper).infer_buffer sampleDefaults
        [.progress 95, .progress 96] none).1.progressReports = [95, 96] ∧
    claimedProgressOk [95, 96] = false := by
  constructor <;> decide

/-- C4 amended: the percents a session announces are nondecreasing and
within [0,100] (assuming the engine's percents are), and the i-th
announced percent (0-based) is at least 10·(i+1) — so at most 10 reports
occur and the thresholds advance by 10 per report; but a percent can be
re-announced and consecutive announcements can differ by less than 10. -/
theorem C4_amended_reports (w : WhisperWrapper) (defaults : WhisperFullParams)
    (script : List EngineEvent) (engineFailure : Option Int)
    (hmono : List.Chain' (· ≤ ·) (progressValues script))
    (hbound : ∀ p ∈ progressValues script, 0 ≤ p ∧ p ≤ 100) :
    List.Chain' (· ≤ ·)
      (w.infer_buffer defaults script engineFailure).1.progressReports ∧
    (∀ r ∈ (w.infer_buffer defaults script engineFailure).1.progressReports,
      0 ≤ r ∧ r ≤ 100) ∧
    ∀ (i : Nat)
      (h : i < (w.infer_buffer defaults script engineFailure).1.progressReports.length),
      10 * ((i : Int) + 1) ≤
        (w.infer_buffer defaults script engineFailure).1.progressReports.get ⟨i, h⟩ := by
  rw [infer_buffer_fst]
  refine ⟨?_, ?_, ?_⟩
  · exact List.Chain'.sublist hmono (progressReportsFrom_sublist _ 0)
  · intro r hr
    exact hbound r ((progressReportsFrom_sublist _ 0).subset hr)
  · intro i h
    have := progressReportsFrom_get (progressValues script) 0 i h
    simpa [List.get_eq_getElem] using this

/-- C4 witness: the amended statement at the session whose engine
percents are 30 then 100. -/
theorem C4_witness :
    (List.Chain' (· ≤ ·) (progressValues [.progress (30 : Int), .progress 100])) ∧
    (∀ p ∈ progressValues [.progress (30 : Int), .progress 100], 0 ≤ p ∧ p ≤ 100) ∧
    (List.Chain' (· ≤ ·)
      ((⟨"", some ⟨[]⟩, 0⟩ : WhisperWrapper).infer_buffer sampleDefaults
        [.progress 30, .progress 100] none).1.progressReports ∧
     (∀ r ∈ ((⟨"", some ⟨[]⟩, 0⟩ : WhisperWrapper).infer_buffer sampleDefaults
        [.progress 30, .progress 100] none).1.progressReports, 0 ≤ r ∧ r ≤ 100) ∧
     ∀ (i : Nat)
       (h : i < ((⟨"", some ⟨[]⟩, 0⟩ : WhisperWrapper).infer_buffer sampleDefaults
         [.progress 30, .progress 100] none).1.progressReports.length),
       10 * ((i : Int) + 1) ≤
         ((⟨"", some ⟨[]⟩, 0⟩ : WhisperWrapper).infer_buffer sampleDefaults
           [.progress 30, .progress 100] none).1.progressReports.get ⟨i, h⟩) :=
  ⟨by norm_num [progressValues, List.chain'_cons, List.chain'_singleton],
   by decide,
   C4_amended_reports _ sampleDefaults _ none
     (by norm_num [progressValues, List.chain'_cons, List.chain'_singleton])
     (by decide)⟩

/-- C5 counterexample: there is no fail-fast validation and no
InvalidConfig outcome. Even when the engine defaults carry the
out-of-range thread count 0, `infer_buffer` silently overwrites it with
the hard-coded 4, starts engine work and fires a progress callback, and
returns the engine status (here: Completed 0). -/
theorem C5_counterexample :
    (infer_params { sampleDefaults with n_threads := 0 } "").n_threads = 4 ∧
    ((⟨"", some ⟨[]⟩, 0⟩ : WhisperWrapper).infer_buffer
        { sampleDefaults with n_threads := 0 } [.progress 50] none).1.progressReports
      = [50] ∧
    ((⟨"", some ⟨[]⟩, 0⟩ : WhisperWrapper).infer_buffer
        { sampleDefaults with n_threads := 0 } [.progress 50] none).2 =
      .Completed 0 := by
  refine ⟨?_, ?_, ?_⟩ <;> decide

/-- C5 amended: `infer_buffer` accepts no caller configuration; every run
uses the hard-coded parameter block (thread count 4, in range) whatever
the defaults say, performs no validation, and unconditionally proceeds to
the engine: the terminal status is `Completed` with the segment count or
`Failed` with the engine's code — no configuration-rejection outcome
exists. -/
theorem C5_amended_no_validation (w : WhisperWrapper)
    (defaults : WhisperFullParams) (script : List EngineEvent)
    (engineFailure : Option Int) :
    (infer_params defaults w.prompt_).n_threads = 4 ∧
    (1 : Int) ≤ (infer_params defaults w.prompt_).n_threads ∧
    (w.infer_buffer defaults script engineFailure =
      whisper_full_model (infer_params defaults w.prompt_) script engineFailure
        initRunState) ∧
    ((w.infer_buffer defaults script engineFailure).2 =
        .Completed ((newSegmentBatches script).flatten.length) ∨
      ∃ code, engineFailure = some code ∧
        (w.infer_buffer defaults script engineFailure).2 = .Failed code) := by
  obtain ⟨f1, f2, f3, f4, f5⟩ := infer_params_fields defaults w.prompt_
  refine ⟨f5, by rw [f5]; norm_num, rfl, ?_⟩
  rw [infer_buffer_eq]
  cases engineFailure with
  | none => left; rfl
  | some code => right; exact ⟨code, rfl, rfl⟩

/-- C6: each notification delivers exactly the newly finalized segments —
the callback prints precisely the last `n_new` of the total, which are the
batch just appended; the session's segment sequence is the concatenation
of the batches in order (append-only: a later notification never revises
or re-emits an earlier segment's text); and the sequence is in increasing
time order whenever the engine finalizes in increasing time order (an
engine-side property, modelled from the spec as a hypothesis). -/
theorem C6_segment_notifications (w : WhisperWrapper)
    (defaults : WhisperFullParams) (script : List EngineEvent)
    (engineFailure : Option Int)
    (horder : List.Chain' (fun a b => a.t1 ≤ b.t0)
      ((newSegmentBatches script).flatten)) :
    ((w.infer_buffer defaults script engineFailure).1.segmentEmits =
      (newSegmentBatches script).map renderBatch) ∧
    (∀ pre b, whisper_print_segment_callback ⟨pre ++ b⟩ b.length = renderBatch b) ∧
    ((w.infer_buffer defaults script engineFailure).1.ctx.segments =
      (newSegmentBatches script).flatten) ∧
    List.Chain' (fun a b => a.t1 ≤ b.t0)
      ((w.infer_buffer defaults script engineFailure).1.ctx.segments) := by
  rw [infer_buffer_fst]
  exact ⟨rfl, fun pre b => segment_callback_append pre b, rfl, horder⟩

/-- C6 witness: a session finalizing the batch [0,10] "x" and then the
batch [10,20] "y", with a progress tick in between. -/
theorem C6_witness :
    (List.Chain' (fun a b => a.t1 ≤ b.t0)
      ((newSegmentBatches [.newSegments [⟨0, 10, "x"⟩], .progress 50,
        .newSegments [⟨10, 20, "y"⟩]]).flatten)) ∧
    (((⟨"", some ⟨[]⟩, 0⟩ : WhisperWrapper).infer_buffer sampleDefaults
        [.newSegments [⟨0, 10, "x"⟩], .progress 50,
         .newSegments [⟨10, 20, "y"⟩]] none).1.segmentEmits =
      (newSegmentBatches [.newSegments [⟨0, 10, "x"⟩], .progress 50,
        .newSegments [⟨10, 20, "y"⟩]]).map renderBatch) ∧
    (∀ pre b, whisper_print_segment_callback ⟨pre ++ b⟩ b.length = renderBatch b) ∧
    (((⟨"", some ⟨[]⟩, 0⟩ : WhisperWrapper).infer_buffer sampleDefaults
        [.newSegments [⟨0, 10, "x"⟩], .progress 50,
         .newSegments [⟨10, 20, "y"⟩]] none).1.ctx.segments =
      (newSegmentBatches [.newSegments [⟨0, 10, "x"⟩], .progress 50,
        .newSegments [⟨10, 20, "y"⟩]]).flatten) ∧
    List.Chain' (fun a b => a.t1 ≤ b.t0)
      (((⟨"", some ⟨[]⟩, 0⟩ : WhisperWrapper).infer_buffer sampleDefaults
        [.newSegments [⟨0, 10, "x"⟩], .progress 50,
         .newSegments [⟨10, 20, "y"⟩]] none).1.ctx.segments) :=
  ⟨by norm_num [newSegmentBatches, List.chain'_cons, List.chain'_singleton],
   C6_segment_notifications _ sampleDefaults _ none
     (by norm_num [newSegmentBatches, List.chain'_cons, List.chain'_singleton])⟩

/-- C7 counterexample: destroying a handle with a one-segment context
frees the resource once, but `get_segment_count` invoked afterwards does
not fail with any UseAfterFree-class error — it performs the unguarded
engine read and returns the ordinary count 1. -/
theorem C7_counterexample :
    ((⟨"", some ⟨[⟨0, 100, "hi"⟩]⟩, 0⟩ : WhisperWrapper).destruct.2 = 1) ∧
    ((⟨"", some ⟨[⟨0, 100, "hi"⟩]⟩, 0⟩ :
        WhisperWrapper).destruct.1.get_segment_count = 1) := by
  constructor <;> decide

/-- C7 amended: the destructor releases the engine resource at most once
— exactly once when the context is non-null — guarded only by the null
check on `whisper_ctx_`; there is no closed flag, the destructor leaves
the fields untouched, and `get_segment_count` after destruction performs
the same unguarded engine read as before, returning an ordinary count
rather than failing with a UseAfterFree-class error. -/
theorem C7_amended_no_close_guard (w : WhisperWrapper) :
    w.destruct.2 ≤ 1 ∧
    (w.destruct.2 = 1 ↔ w.whisper_ctx_.isSome = true) ∧
    w.destruct.1 = w ∧
    w.destruct.1.get_segment_count = w.get_segment_count := by
  unfold WhisperWrapper.destruct
  by_cases h : w.whisper_ctx_.isSome = true <;> simp [h]

/-- C8: the abort mechanism is inert — `infer_buffer` hands the engine
both static flags initialized to false and no code path in the fragment
sets them, so the encoder-begin callback always returns true and the
abort callback always returns false, the event schedule is consumed in
full, and no run of `infer_buffer` ever terminates as aborted at a
checkpoint. -/
theorem C8_abort_inert (w : WhisperWrapper) (defaults : WhisperFullParams)
    (script : List EngineEvent) (engineFailure : Option Int) :
    (infer_params defaults w.prompt_).encoder_begin_abort_flag = false ∧
    (infer_params defaults w.prompt_).abort_flag = false ∧
    encoder_begin_callback (infer_params defaults w.prompt_).encoder_begin_abort_flag
      = true ∧
    abort_callback (infer_params defaults w.prompt_).abort_flag = false ∧
    (runEvents (infer_params defaults w.prompt_) script initRunState).2 = false ∧
    (w.infer_buffer defaults script engineFailure).2.isCancelled = false := by
  obtain ⟨f1, f2, f3, f4, -⟩ := infer_params_fields defaults w.prompt_
  refine ⟨f1, f2, by rw [f1]; rfl, by rw [f2]; rfl, ?_, ?_⟩
  · rw [runEvents_infer_eq _ f1 f2 f3 f4 script initRunState]
  · rw [infer_buffer_eq]
    cases engineFailure <;> rfl

/-- C9: the stored last-reported progress starts at 0, advances by
exactly 10 each time the callback reports — however large the engine's
jump was — hence always equals 10 times the number of reports so far, a
multiple of 10; and for nondecreasing nonnegative engine percents it
never exceeds the engine-reported progress. -/
theorem C9_stored_progress (w : WhisperWrapper) (defaults : WhisperFullParams)
    (script : List EngineEvent) (engineFailure : Option Int)
    (hmono : List.Chain' (· ≤ ·) (progressValues script))
    (hnn : ∀ p ∈ progressValues script, 0 ≤ p) :
    initRunState.stored_progress = 0 ∧
    (∀ p s, whisper_print_progress_callback p s =
      (if s + 10 ≤ p then s + 10 else s,
       if s + 10 ≤ p then some p else none)) ∧
    ((w.infer_buffer defaults script engineFailure).1.stored_progress =
      10 * ((w.infer_buffer defaults script engineFailure).1.progressReports.length
        : Int)) ∧
    ((10 : Int) ∣ (w.infer_buffer defaults script engineFailure).1.stored_progress) ∧
    ∀ h : progressValues script ≠ [],
      (w.infer_buffer defaults script engineFailure).1.stored_progress ≤
        (progressValues script).getLast h := by
  rw [infer_buffer_fst]
  refine ⟨rfl, ?_, ?_, ?_, ?_⟩
  · intro p s
    unfold whisper_print_progress_callback
    split <;> rfl
  · simpa using storedAfter_eq (progressValues script) 0
  · exact ⟨((progressReportsFrom 0 (progressValues script)).length : Int),
      by simpa using storedAfter_eq (progressValues script) 0⟩
  · intro h
    have hle := storedAfter_le_max (progressValues script) 0 h hmono
    have h0 : (0 : Int) ≤ (progressValues script).getLast h :=
      hnn _ (List.getLast_mem h)
    calc storedAfter 0 (progressValues script)
        ≤ max 0 ((progressValues script).getLast h) := hle
      _ = (progressValues script).getLast h := max_eq_right h0

/-- C9 witness: the session whose engine percents are 25 then 95 reports
twice; the stored value ends at 20 = 10·2 ≤ 95. -/
theorem C9_witness :
    (List.Chain' (· ≤ ·) (progressValues [.progress (25 : Int), .progress 95])) ∧
    (∀ p ∈ progressValues [.progress (25 : Int), .progress 95], 0 ≤ p) ∧
    (initRunState.stored_progress = 0 ∧
     (∀ p s, whisper_print_progress_callback p s =
       (if s + 10 ≤ p then s + 10 else s,
        if s + 10 ≤ p then some p else none)) ∧
     (((⟨"", some ⟨[]⟩, 0⟩ : WhisperWrapper).infer_buffer sampleDefaults
         [.progress 25, .progress 95] none).1.stored_progress =
       10 * (((⟨"", some ⟨[]⟩, 0⟩ : WhisperWrapper).infer_buffer sampleDefaults
         [.progress 25, .progress 95] none).1.progressReports.length : Int)) ∧
     ((10 : Int) ∣ ((⟨"", some ⟨[]⟩, 0⟩ : WhisperWrapper).infer_buffer sampleDefaults
         [.progress 25, .progress 95] none).1.stored_progress) ∧
     ∀ h : progressValues [.progress (25 : Int), .progress 95] ≠ [],
       ((⟨"", some ⟨[]⟩, 0⟩ : WhisperWrapper).infer_buffer sampleDefaults
           [.progress 25, .progress 95] none).1.stored_progress ≤
         (progressValues [.progress (25 : Int), .progress 95]).getLast h) :=
  ⟨by norm_num [progressValues, List.chain'_cons, List.chain'_singleton],
   by decide,
   C9_stored_progress _ sampleDefaults _ none
     (by norm_num [progressValues, List.chain'_cons, List.chain'_singleton])
     (by decide)⟩

/-- C10: every entry the segment callback prints renders both its start
and end timestamp from the constant 0 — the string "00:00:00.000" —
whatever the segment's actual times are, because the callback's local
`t0` and `t1` are initialized to 0 and never updated before printing. -/
theorem C10_zero_timestamps (ctx : WhisperContext) (n_new : Nat)
    (e : String × String × String)
    (he : e ∈ whisper_print_segment_callback ctx n_new) :
    e.1 = "00:00:00.000" ∧ e.2.1 = "00:00:00.000" := by
  have hts : to_timestamp 0 = "00:00:00.000" := by decide
  simp only [whisper_print_segment_callback, List.mem_map] at he
  obtain ⟨seg, hseg, heq⟩ := he
  subst heq
  exact ⟨hts, hts⟩

/-- C10 witness: the segment from centisecond 123 to 456 is printed with
both timestamps rendered "00:00:00.000". -/
theorem C10_witness :
    (("00:00:00.000", "00:00:00.000", "x") ∈
      whisper_print_segment_callback ⟨[⟨123, 456, "x"⟩]⟩ 1) ∧
    (("00:00:00.000", "00:00:00.000", ("x" : String)).1 = "00:00:00.000" ∧
     ("00:00:00.000", "00:00:00.000", ("x" : String)).2.1 = "00:00:00.000") :=
  ⟨by decide, C10_zero_timestamps ⟨[⟨123, 456, "x"⟩]⟩ 1 _ (by decide)⟩

end WhisperRust
